import Mathlib

/-!
Verification of the freshness-policy core of the repository
(`python_modules/dagster/dagster/_core/definitions/freshness_policy.py`).

Instants (`datetime.datetime`) and durations are embedded as rational numbers
of minutes since an arbitrary epoch; Python float arithmetic is modelled
exactly over `ℚ`.  Asset keys are embedded as strings.  The external cron
tick source (`cron_string_iterator` / `reverse_cron_string_iterator`, which
live outside the provided sources) is passed in explicitly: the forward
iterator as the finite list of ticks the generation loop may consume, the
reverse iterator as an infinite descending stream.
-/

namespace Freshness

abbrev AssetKey := String

/-- Embedding of the `FreshnessConstraint` named tuple. -/
structure FreshnessConstraint where
  asset_keys : Finset AssetKey
  required_data_time : ℚ
  required_by_time : ℚ
deriving DecidableEq

/-- Embedding of the `FreshnessPolicy` named tuple (its three fields; the
`maximum_lag_minutes` float is a rational). -/
structure FreshnessPolicy where
  maximum_lag_minutes : ℚ
  cron_schedule : Option String
  cron_schedule_timezone : Option String
deriving DecidableEq

/-- `maximum_lag_delta`, as a duration in minutes. -/
def FreshnessPolicy.maximum_lag_delta (p : FreshnessPolicy) : ℚ :=
  p.maximum_lag_minutes

/-- Modelled from the spec: the no-cron branch obtains its evaluation ticks
from `pendulum.period(window_start, window_end).range("minutes", step)`
(pendulum is an external collaborator, not part of the provided sources):
the ascending sequence `window_start + k * step` of instants not past
`window_end`, both endpoints included when they land on the grid.  The model
is stated for a positive step; a non-positive step yields no ticks. -/
def pendulumRange (window_start window_end step : ℚ) : List ℚ :=
  if 0 < step ∧ window_start ≤ window_end then
    (List.range (⌊(window_end - window_start) / step⌋.toNat + 1)).map
      (fun k => window_start + k * step)
  else []

/-- The `while` loop of `constraints_for_time_window`: consume ticks while
they precede `window_end`, adding a constraint for each, and stop once the
set holds more than 100 constraints (the cap is tested after the insertion,
matching the `if len(constraints) > 100: break` placement). -/
def constraintsLoop (p : FreshnessPolicy) (upstream_keys : Finset AssetKey)
    (window_end : ℚ) : List ℚ → Finset FreshnessConstraint → Finset FreshnessConstraint
  | [], constraints => constraints
  | evaluation_tick :: rest, constraints =>
    if evaluation_tick < window_end then
      let constraints' := insert
        { asset_keys := upstream_keys
          required_data_time := evaluation_tick - p.maximum_lag_delta
          required_by_time := evaluation_tick } constraints
      if constraints'.card > 100 then constraints'
      else constraintsLoop p upstream_keys window_end rest constraints'
    else constraints

/-- Embedding of `FreshnessPolicy.constraints_for_time_window`.  `cronTicks`
stands for the output of the external `cron_string_iterator` started at
`window_start`; it is only consulted when a cron schedule is present. -/
def constraints_for_time_window (p : FreshnessPolicy) (cronTicks : List ℚ)
    (window_start window_end : ℚ) (upstream_keys : Finset AssetKey) :
    Finset FreshnessConstraint :=
  let constraint_ticks :=
    match p.cron_schedule with
    | some _ => cronTicks
    | none => pendulumRange window_start window_end (p.maximum_lag_minutes / 10 + 1 / 10)
  constraintsLoop p upstream_keys window_end constraint_ticks ∅

/-- The `for` loop of `minutes_late`: walk the upstream mapping in order,
short-circuiting to the unknown sentinel (`none`) on an absent value and
otherwise accumulating the maximal shortfall past `required_time`. -/
def minutesLateLoop (p : FreshnessPolicy) (evaluation_tick : ℚ) :
    List (AssetKey × Option ℚ) → ℚ → Option ℚ
  | [], minutes_late => some minutes_late
  | (_, none) :: _, _ => none
  | (_, some used_data_time) :: rest, minutes_late =>
    let required_time := evaluation_tick - p.maximum_lag_delta
    if used_data_time < required_time then
      minutesLateLoop p evaluation_tick rest (max minutes_late (required_time - used_data_time))
    else
      minutesLateLoop p evaluation_tick rest minutes_late

/-- Embedding of `FreshnessPolicy.minutes_late`.  `reverseTicks` stands for
the external `reverse_cron_string_iterator` ended at `evaluation_time` — an
infinite descending stream of cron ticks, of which the code takes only the
first element; it is only consulted when a cron schedule is present. -/
def minutes_late (p : FreshnessPolicy) (reverseTicks : ℕ → ℚ)
    (evaluation_time : ℚ) (used_data_times : List (AssetKey × Option ℚ)) :
    Option ℚ :=
  let evaluation_tick :=
    match p.cron_schedule with
    | some _ => reverseTicks 0
    | none => evaluation_time
  minutesLateLoop p evaluation_tick used_data_times 0

/-- The error kinds construction can surface: `DagsterInvalidDefinitionError`
(a definition error) and the parameter-validation error raised by the
`dagster._check` helpers. -/
inductive DagsterError where
  | invalidDefinition (msg : String)
  | parameterCheck (param : String) (msg : String)
deriving DecidableEq

/-- Whether an error is of the definition-error kind. -/
def DagsterError.isDefinitionError : DagsterError → Bool
  | .invalidDefinition _ => true
  | .parameterCheck _ _ => false

/-- A Python value supplied for the `maximum_lag_minutes` argument: numeric
(int or float, both carried as a rational) or some non-numeric value. -/
inductive PyVal where
  | int (n : ℤ)
  | float (q : ℚ)
  | nonNumeric (repr : String)
deriving DecidableEq

/-- Modelled from the spec: `dagster._check.numeric_param` (the `check`
module is not among the provided sources) — `maximum_lag` is coerced to a
numeric duration and non-numeric input fails with a parameter-validation
error. -/
def numeric_param : PyVal → String → Except DagsterError ℚ
  | .int n, _ => .ok n
  | .float q, _ => .ok q
  | .nonNumeric r, param =>
    .error (.parameterCheck param ("Param " ++ param ++ " is not numeric, got " ++ r ++ "."))

/-- Modelled from the spec: the failure raised when a timezone is supplied
without a cron schedule (`check.param_invariant`, not among the provided
sources).  Per the spec it surfaces as the same definition-error kind as an
invalid cron expression. -/
def timezoneWithoutScheduleError : DagsterError :=
  .invalidDefinition "Cannot specify cron_schedule_timezone without a cron_schedule."

/-- Embedding of `FreshnessPolicy.__new__`.  The external validators —
`is_valid_cron_schedule` from `dagster._utils.schedules` and the pendulum
timezone loader — are passed in as boolean oracles.  Checks run in source
order: cron validity, then the timezone checks, then the numeric coercion
of `maximum_lag_minutes`.  Quoting of offending strings in messages is kept,
apostrophes aside. -/
def FreshnessPolicy.new (is_valid_cron_schedule : String → Bool)
    (timezone_exists : String → Bool) (maximum_lag_minutes : PyVal)
    (cron_schedule : Option String) (cron_schedule_timezone : Option String) :
    Except DagsterError FreshnessPolicy := do
  match cron_schedule with
  | some s =>
    if ¬ is_valid_cron_schedule s then
      throw (.invalidDefinition ("Invalid cron schedule " ++ s ++ "."))
  | none => pure ()
  match cron_schedule_timezone with
  | some tz =>
    if cron_schedule = none then
      throw timezoneWithoutScheduleError
    if ¬ timezone_exists tz then
      -- the source interpolates nothing here (the f-prefix is missing), so
      -- the message names no timezone
      throw (.invalidDefinition "Invalid cron schedule timezone \x7bcron_schedule_timezone\x7d.   ")
  | none => pure ()
  let lag ← numeric_param maximum_lag_minutes "maximum_lag_minutes"
  return { maximum_lag_minutes := lag
           cron_schedule := cron_schedule
           cron_schedule_timezone := cron_schedule_timezone }

/-- Embedding of `FreshnessPolicy._create` applied to the tuple produced by
`FreshnessPolicy.__reduce__`: reconstruction passes only
`maximum_lag_minutes` and `cron_schedule` back to the constructor, so
`cron_schedule_timezone` takes its default `None`. -/
def FreshnessPolicy.reduce_roundtrip (is_valid_cron_schedule : String → Bool)
    (timezone_exists : String → Bool) (p : FreshnessPolicy) :
    Except DagsterError FreshnessPolicy :=
  FreshnessPolicy.new is_valid_cron_schedule timezone_exists
    (.float p.maximum_lag_minutes) p.cron_schedule none

/-! ### Lemmas about the constraint-generation loop -/

/-- Every member of the loop's result either was already in the accumulator or
arises from a consumed tick that precedes `window_end`, carrying the upstream
keys verbatim and the `required_data_time = tick - maximum_lag` offset. -/
theorem mem_constraintsLoop (p : FreshnessPolicy) (keys : Finset AssetKey) (we : ℚ)
    (ticks : List ℚ) :
    ∀ (acc : Finset FreshnessConstraint) (c : FreshnessConstraint),
      c ∈ constraintsLoop p keys we ticks acc →
      c ∈ acc ∨ ∃ t ∈ ticks, t < we ∧
        c = { asset_keys := keys
              required_data_time := t - p.maximum_lag_delta
              required_by_time := t } := by
  induction ticks with
  | nil => exact fun acc c hc => Or.inl hc
  | cons t rest ih =>
    intro acc c hc
    rw [constraintsLoop] at hc
    by_cases htw : t < we
    · rw [if_pos htw] at hc
      dsimp only at hc
      by_cases hcard :
          (insert
            ({ asset_keys := keys
               required_data_time := t - p.maximum_lag_delta
               required_by_time := t } : FreshnessConstraint) acc).card > 100
      · rw [if_pos hcard] at hc
        rcases Finset.mem_insert.mp hc with h | h
        · exact Or.inr ⟨t, List.mem_cons_self t rest, htw, h⟩
        · exact Or.inl h
      · rw [if_neg hcard] at hc
        rcases ih _ _ hc with h | ⟨t', ht', h1, h2⟩
        · rcases Finset.mem_insert.mp h with h | h
          · exact Or.inr ⟨t, List.mem_cons_self t rest, htw, h⟩
          · exact Or.inl h
        · exact Or.inr ⟨t', List.mem_cons_of_mem t ht', h1, h2⟩
    · rw [if_neg htw] at hc
      exact Or.inl hc

/-- The loop never grows the constraint set past 101 elements: the cap test
sits after the insertion, so one insertion past 100 can land before the
break fires. -/
theorem constraintsLoop_card_le (p : FreshnessPolicy) (keys : Finset AssetKey)
    (we : ℚ) (ticks : List ℚ) :
    ∀ acc : Finset FreshnessConstraint, acc.card ≤ 100 →
      (constraintsLoop p keys we ticks acc).card ≤ 101 := by
  induction ticks with
  | nil =>
    intro acc h
    rw [constraintsLoop]
    omega
  | cons t rest ih =>
    intro acc h
    rw [constraintsLoop]
    by_cases htw : t < we
    · rw [if_pos htw]
      dsimp only
      by_cases hcard :
          (insert
            ({ asset_keys := keys
               required_data_time := t - p.maximum_lag_delta
               required_by_time := t } : FreshnessConstraint) acc).card > 100
      · rw [if_pos hcard]
        have hle := Finset.card_insert_le
          ({ asset_keys := keys
             required_data_time := t - p.maximum_lag_delta
             required_by_time := t } : FreshnessConstraint) acc
        omega
      · rw [if_neg hcard]
        exact ih _ (by omega)
    · rw [if_neg htw]
      omega

/-! ### Claim theorems: constraint generation -/

/-- C1: for every valid policy and every window with `window_start <
window_end`, every constraint emitted by `constraints_for_time_window`
satisfies `required_data_time = required_by_time - maximum_lag`, and when a
cron schedule is present (so that the supplied forward cron ticks, all at or
after `window_start` per the tick-source contract, are the ones consumed)
also `window_start ≤ required_by_time < window_end`. -/
theorem claim_C1_constraint_offset_and_window (p : FreshnessPolicy)
    (cronTicks : List ℚ) (window_start window_end : ℚ) (keys : Finset AssetKey)
    (_hw : window_start < window_end) (_hvalid : 0 < p.maximum_lag_minutes)
    (hticks : ∀ t ∈ cronTicks, window_start ≤ t) :
    ∀ c ∈ constraints_for_time_window p cronTicks window_start window_end keys,
      c.required_data_time = c.required_by_time - p.maximum_lag_minutes ∧
      (p.cron_schedule ≠ none →
        window_start ≤ c.required_by_time ∧ c.required_by_time < window_end) := by
  intro c hc
  rw [constraints_for_time_window] at hc
  rcases hcron : p.cron_schedule with _ | s
  all_goals rw [hcron] at hc
  · dsimp only at hc
    rcases mem_constraintsLoop p keys window_end _ _ _ hc with h | ⟨t, _, htlt, hceq⟩
    · exact absurd h (Finset.not_mem_empty c)
    · subst hceq
      exact ⟨rfl, fun h => absurd rfl h⟩
  · dsimp only at hc
    rcases mem_constraintsLoop p keys window_end _ _ _ hc with h | ⟨t, htmem, htlt, hceq⟩
    · exact absurd h (Finset.not_mem_empty c)
    · subst hceq
      exact ⟨rfl, fun _ => ⟨hticks t htmem, htlt⟩⟩

/-- Witness for C1 at a concrete cron policy, window, tick list and emitted
constraint: the single constraint generated from the tick at 540 satisfies
the offset identity and the window bounds. -/
theorem claim_C1_constraint_offset_and_window_witness :
    (480 : ℚ) = 540 - 60 ∧ ((0 : ℚ) ≤ 540 ∧ (540 : ℚ) < 1000) := by
  have happ := claim_C1_constraint_offset_and_window ⟨60, some "0 9 * * *", none⟩
    [540] 0 1000 ∅ (by norm_num) (by norm_num)
    (by intro t ht; simp at ht; simp [ht]) ⟨∅, 480, 540⟩
    (by set_option maxRecDepth 10000 in with_unfolding_all decide)
  exact ⟨happ.1, happ.2 (by simp)⟩

/-- C2 counterexample: the claim caps the result at 100 constraints, but the
cap is tested only after each insertion, so a window wide enough relative to
the sampling step yields 101 constraints (here: no cron schedule, lag 9 so
the sampling step is exactly one minute, window `[0, 200)`). -/
theorem claim_C2_counterexample :
    ((constraints_for_time_window ⟨9, none, none⟩ [] 0 200 ∅).card ≤ 100) = False := by
  have h : (constraints_for_time_window ⟨9, none, none⟩ [] 0 200 ∅).card = 101 := by
    with_unfolding_all rfl
  rw [h]
  simp

/-- C2 amended: the result of `constraints_for_time_window` holds at most
101 constraints (not 100: the `> 100` test runs after the insertion), and
reaching the cap truncates generation early — the function stays total —
rather than failing. -/
theorem claim_C2_amended_card_le (p : FreshnessPolicy) (cronTicks : List ℚ)
    (window_start window_end : ℚ) (keys : Finset AssetKey) :
    (constraints_for_time_window p cronTicks window_start window_end keys).card ≤ 101 := by
  rw [constraints_for_time_window]
  rcases p.cron_schedule with _ | s
  · exact constraintsLoop_card_le p keys window_end _ ∅ (by simp)
  · exact constraintsLoop_card_le p keys window_end _ ∅ (by simp)

/-- Over the degenerate window `[ws, ws]` the modelled pendulum sampling
produces the single tick `ws` (or nothing, for a non-positive step). -/
theorem pendulumRange_self (ws step : ℚ) :
    pendulumRange ws ws step = if 0 < step then [ws] else [] := by
  rw [pendulumRange]
  by_cases hstep : 0 < step
  · rw [if_pos ⟨hstep, le_refl ws⟩, if_pos hstep]
    have hfloor : ⌊(ws - ws) / step⌋ = 0 := by simp
    rw [hfloor]
    simp [List.range_succ]
  · rw [if_neg (fun h => hstep h.1), if_neg hstep]

/-- C3: with `window_start = window_end` the result is empty, for policies
with or without a cron schedule (for the cron branch, under the tick-source
contract that the forward ticks start at or after `window_start`). -/
theorem claim_C3_empty_window (p : FreshnessPolicy) (cronTicks : List ℚ)
    (t : ℚ) (keys : Finset AssetKey)
    (hticks : ∀ x ∈ cronTicks, t ≤ x) :
    constraints_for_time_window p cronTicks t t keys = ∅ := by
  rw [constraints_for_time_window]
  rcases p.cron_schedule with _ | s
  · dsimp only
    rw [pendulumRange_self]
    by_cases hstep : 0 < p.maximum_lag_minutes / 10 + 1 / 10
    · rw [if_pos hstep, constraintsLoop]
      rw [if_neg (lt_irrefl t)]
    · rw [if_neg hstep]
      rfl
  · dsimp only
    cases cronTicks with
    | nil => rfl
    | cons x rest =>
      rw [constraintsLoop]
      have hx : ¬ x < t := not_lt.mpr (hticks x (List.mem_cons_self x rest))
      rw [if_neg hx]

/-- Witness for C3 at a concrete policy, instant and tick list. -/
theorem claim_C3_empty_window_witness :
    constraints_for_time_window ⟨60, some "0 9 * * *", none⟩ [500, 1000] 500 500 ∅ = ∅ :=
  claim_C3_empty_window ⟨60, some "0 9 * * *", none⟩ [500, 1000] 500 ∅
    (by intro x hx; simp at hx; rcases hx with h | h <;> norm_num [h])

/-! ### Lemmas about the lateness loop -/

/-- The lateness loop returns the unknown sentinel exactly when the upstream
mapping holds an absent timestamp. -/
theorem minutesLateLoop_eq_none_iff (p : FreshnessPolicy) (a : ℚ)
    (used : List (AssetKey × Option ℚ)) :
    ∀ m : ℚ, (minutesLateLoop p a used m = none ↔ ∃ kv ∈ used, kv.2 = none) := by
  induction used with
  | nil => intro m; simp [minutesLateLoop]
  | cons kv rest ih =>
    intro m
    obtain ⟨k, u⟩ := kv
    cases u with
    | none => simp [minutesLateLoop]
    | some u =>
      rw [minutesLateLoop]
      constructor
      · intro h
        by_cases hu : u < a - p.maximum_lag_delta
        · rw [if_pos hu] at h
          obtain ⟨kv', hmem, habs⟩ := (ih _).mp h
          exact ⟨kv', List.mem_cons_of_mem _ hmem, habs⟩
        · rw [if_neg hu] at h
          obtain ⟨kv', hmem, habs⟩ := (ih _).mp h
          exact ⟨kv', List.mem_cons_of_mem _ hmem, habs⟩
      · rintro ⟨kv', hmem, habs⟩
        rcases List.mem_cons.mp hmem with heq | hmem'
        · rw [heq] at habs
          exact absurd habs (by simp)
        · by_cases hu : u < a - p.maximum_lag_delta
          · rw [if_pos hu]
            exact (ih _).mpr ⟨kv', hmem', habs⟩
          · rw [if_neg hu]
            exact (ih _).mpr ⟨kv', hmem', habs⟩

/-- With no absent timestamp, the lateness loop computes the maximum of the
individual shortfalls past `required_time = anchor - maximum_lag`, folded
onto the accumulator (timestamps at or past `required_time` contribute
nothing as long as the accumulator is non-negative). -/
theorem minutesLateLoop_eq_foldl (p : FreshnessPolicy) (a : ℚ)
    (used : List (AssetKey × Option ℚ)) :
    ∀ m : ℚ, 0 ≤ m → (∀ kv ∈ used, kv.2 ≠ none) →
      minutesLateLoop p a used m =
        some ((used.filterMap Prod.snd).foldl
          (fun acc u => max acc (a - p.maximum_lag_delta - u)) m) := by
  induction used with
  | nil => intro m _ _; simp [minutesLateLoop]
  | cons kv rest ih =>
    intro m hm habs
    obtain ⟨k, u⟩ := kv
    cases u with
    | none => exact absurd rfl (habs (k, none) (List.mem_cons_self _ _))
    | some u =>
      rw [minutesLateLoop]
      have habs' : ∀ kv ∈ rest, kv.2 ≠ none :=
        fun kv h => habs kv (List.mem_cons_of_mem _ h)
      by_cases hu : u < a - p.maximum_lag_delta
      · rw [if_pos hu]
        rw [ih (max m (a - p.maximum_lag_delta - u)) (le_max_of_le_left hm) habs']
        simp
      · rw [if_neg hu]
        rw [ih m hm habs']
        have hmax : max m (a - p.maximum_lag_delta - u) = m :=
          max_eq_left (le_trans (by linarith [not_lt.mp hu]) hm)
        simp [hmax]

/-! ### Claim theorems: lateness evaluation -/

/-- C4: `minutes_late` returns the unknown sentinel (`none`) if and only if
some key of `used_data_times` maps to an absent timestamp — a single absent
value makes the result unknown regardless of all other upstream values. -/
theorem claim_C4_unknown_iff_absent (p : FreshnessPolicy) (reverseTicks : ℕ → ℚ)
    (evaluation_time : ℚ) (used_data_times : List (AssetKey × Option ℚ)) :
    minutes_late p reverseTicks evaluation_time used_data_times = none ↔
      ∃ kv ∈ used_data_times, kv.2 = none := by
  rw [minutes_late]
  exact minutesLateLoop_eq_none_iff p _ used_data_times 0

/-- C5: with no absent values, `minutes_late` equals the maximum over all
upstream timestamps of the shortfall `required_time - used_data_time`,
floored at zero (the fold starts at `0`, and timestamps not strictly earlier
than `required_time` never raise it); the claim's concrete instance — lag 60,
no cron schedule, one upstream at `T - 90` — follows with value `30`. -/
theorem claim_C5_max_shortfall (p : FreshnessPolicy) (reverseTicks : ℕ → ℚ)
    (evaluation_time : ℚ) (used_data_times : List (AssetKey × Option ℚ))
    (habs : ∀ kv ∈ used_data_times, kv.2 ≠ none) :
    minutes_late p reverseTicks evaluation_time used_data_times =
      some ((used_data_times.filterMap Prod.snd).foldl
        (fun acc u => max acc
          ((match p.cron_schedule with
            | some _ => reverseTicks 0
            | none => evaluation_time) - p.maximum_lag_delta - u)) 0) := by
  rw [minutes_late]
  exact minutesLateLoop_eq_foldl p _ used_data_times 0 (le_refl 0) habs

/-- Witness for C5: the claim's own concrete instance, with `T = 1000` —
lag 60, no cron schedule, a single upstream at `T - 90` — evaluates to 30. -/
theorem claim_C5_max_shortfall_witness :
    minutes_late ⟨60, none, none⟩ (fun _ => 0) 1000 [("A", some 910)] = some 30 := by
  rw [claim_C5_max_shortfall ⟨60, none, none⟩ (fun _ => 0) 1000 [("A", some 910)]
    (by simp)]
  with_unfolding_all rfl

/-- C7: with an empty `used_data_times` mapping the result is `0` minutes
late, which is a present value, distinct from the unknown sentinel. -/
theorem claim_C7_empty_upstreams (p : FreshnessPolicy) (reverseTicks : ℕ → ℚ)
    (evaluation_time : ℚ) :
    minutes_late p reverseTicks evaluation_time [] = some 0 ∧
      minutes_late p reverseTicks evaluation_time [] ≠ none := by
  constructor
  · rw [minutes_late]
    rfl
  · rw [minutes_late]
    exact fun h => Option.noConfusion h

/-- The lateness loop reads the policy only through its maximum lag. -/
theorem minutesLateLoop_congr (p p' : FreshnessPolicy)
    (h : p.maximum_lag_minutes = p'.maximum_lag_minutes) (a : ℚ)
    (used : List (AssetKey × Option ℚ)) :
    ∀ m : ℚ, minutesLateLoop p a used m = minutesLateLoop p' a used m := by
  induction used with
  | nil => intro m; rfl
  | cons kv rest ih =>
    intro m
    obtain ⟨k, u⟩ := kv
    cases u with
    | none => rfl
    | some u =>
      rw [minutesLateLoop, minutesLateLoop]
      have hd : p.maximum_lag_delta = p'.maximum_lag_delta := h
      rw [hd]
      by_cases hu : u < a - p'.maximum_lag_delta
      · rw [if_pos hu, if_pos hu, ih]
      · rw [if_neg hu, if_neg hu, ih]

/-- C6: with a cron schedule present, `minutes_late` anchors on the first
element of the reverse cron tick sequence — it agrees with the lateness a
cron-free policy of the same lag would report at the anchor instant, for
which the anchor is the evaluation time itself — and on the claim's concrete
instance (schedule 9AM daily, lag 1440 minutes, evaluated at 10AM on day D
with the upstream at 8AM on day D−1, instants in minutes from midnight of
day D−1, the anchor tick being 9AM on day D) the lateness is 60 minutes. -/
theorem claim_C6_cron_anchor :
    (∀ (p : FreshnessPolicy) (s : String) (reverseTicks altTicks : ℕ → ℚ)
      (evaluation_time : ℚ) (used : List (AssetKey × Option ℚ)),
      p.cron_schedule = some s →
      minutes_late p reverseTicks evaluation_time used =
        minutes_late ⟨p.maximum_lag_minutes, none, none⟩ altTicks (reverseTicks 0) used) ∧
    minutes_late ⟨1440, some "0 9 * * *", none⟩ (fun n => 1980 - 1440 * (n : ℚ))
      2040 [("A", some 480)] = some 60 := by
  constructor
  · intro p s reverseTicks altTicks evaluation_time used hcron
    rw [minutes_late, minutes_late, hcron]
    exact minutesLateLoop_congr p ⟨p.maximum_lag_minutes, none, none⟩ rfl _ used 0
  · with_unfolding_all rfl

/-- Witness for C6: instantiating the general anchor statement at the
claim's concrete cron policy and reverse tick stream. -/
theorem claim_C6_cron_anchor_witness :
    minutes_late ⟨1440, some "0 9 * * *", none⟩ (fun n => 1980 - 1440 * (n : ℚ))
        2040 [("A", some 480)] =
      minutes_late ⟨1440, none, none⟩ (fun _ => 0)
        ((fun n => 1980 - 1440 * (n : ℚ)) 0) [("A", some 480)] :=
  claim_C6_cron_anchor.1 ⟨1440, some "0 9 * * *", none⟩ "0 9 * * *"
    (fun n => 1980 - 1440 * (n : ℚ)) (fun _ => 0) 2040 [("A", some 480)] rfl

/-! ### Lemmas about construction -/

/-- Inversion of a successful construction: the stored lag is the numeric
coercion of the input, the optional fields are stored verbatim, and any
supplied cron expression must have passed the validator. -/
theorem new_eq_ok (v h : String → Bool) (lag : PyVal) (cron tz : Option String)
    (p : FreshnessPolicy) (hp : FreshnessPolicy.new v h lag cron tz = .ok p) :
    numeric_param lag "maximum_lag_minutes" = .ok p.maximum_lag_minutes ∧
    p.cron_schedule = cron ∧ p.cron_schedule_timezone = tz ∧
    (∀ s, cron = some s → v s = true) := by
  cases cron with
  | none =>
    cases tz with
    | none =>
      cases lag <;>
        simp [FreshnessPolicy.new, numeric_param, throw, throwThe, MonadExceptOf.throw,
          bind, Except.bind, pure, Except.pure, Functor.map, Except.map] at hp ⊢ <;>
        simp [← hp]
    | some t =>
      simp [FreshnessPolicy.new, throw, throwThe, MonadExceptOf.throw,
        bind, Except.bind, pure, Except.pure] at hp
  | some s =>
    by_cases hv : v s = true
    · cases tz with
      | none =>
        cases lag <;>
          simp [FreshnessPolicy.new, hv, numeric_param, throw, throwThe, MonadExceptOf.throw,
            bind, Except.bind, pure, Except.pure, Functor.map, Except.map] at hp ⊢ <;>
          simp [← hp, hv]
      | some t =>
        by_cases ht : h t = true
        · cases lag <;>
            simp [FreshnessPolicy.new, hv, ht, numeric_param, throw, throwThe, MonadExceptOf.throw,
              bind, Except.bind, pure, Except.pure, Functor.map, Except.map] at hp ⊢ <;>
            simp [← hp, hv]
        · simp [FreshnessPolicy.new, hv, ht, throw, throwThe, MonadExceptOf.throw,
            bind, Except.bind, pure, Except.pure] at hp
    · simp [FreshnessPolicy.new, hv, throw, throwThe, MonadExceptOf.throw,
        bind, Except.bind, pure, Except.pure] at hp

/-! ### Claim theorems: construction, validation and pickling -/

/-- C8: constructing with a cron expression the validator rejects fails with
an invalid-definition error naming the offending string, and supplying a
timezone without a cron schedule fails with that same definition-error kind
(the latter failure lives in `dagster._check`, outside the provided sources,
and is modelled from the spec). -/
theorem claim_C8_construction_errors :
    (∀ (v h : String → Bool) (lag : PyVal) (tz : Option String) (s : String),
      v s = false →
      FreshnessPolicy.new v h lag (some s) tz =
          .error (.invalidDefinition ("Invalid cron schedule " ++ s ++ ".")) ∧
        (DagsterError.invalidDefinition
          ("Invalid cron schedule " ++ s ++ ".")).isDefinitionError = true) ∧
    (∀ (v h : String → Bool) (lag : PyVal) (tz : String),
      FreshnessPolicy.new v h lag none (some tz) = .error timezoneWithoutScheduleError ∧
        timezoneWithoutScheduleError.isDefinitionError = true) := by
  constructor
  · intro v h lag tz s hv
    constructor
    · simp [FreshnessPolicy.new, hv, throw, throwThe, MonadExceptOf.throw,
        bind, Except.bind, pure, Except.pure]
    · rfl
  · intro v h lag tz
    constructor
    · simp [FreshnessPolicy.new, throw, throwThe, MonadExceptOf.throw,
        bind, Except.bind, pure, Except.pure]
    · rfl

/-- Witness for C8: both failure modes at concrete inputs. -/
theorem claim_C8_construction_errors_witness :
    FreshnessPolicy.new (fun _ => false) (fun _ => true) (.float 30)
        (some "not-a-cron") none =
      .error (.invalidDefinition ("Invalid cron schedule " ++ "not-a-cron" ++ ".")) ∧
    FreshnessPolicy.new (fun _ => true) (fun _ => true) (.float 30) none (some "UTC") =
      .error timezoneWithoutScheduleError :=
  ⟨(claim_C8_construction_errors.1 (fun _ => false) (fun _ => true) (.float 30)
      none "not-a-cron" rfl).1,
   (claim_C8_construction_errors.2 (fun _ => true) (fun _ => true) (.float 30) "UTC").1⟩

/-- C9 counterexample: the claimed invariant `maximum_lag > 0` is not
established by construction — a zero lag is accepted (construction only
checks that the value is numeric), yielding a successfully constructed
policy whose lag is not positive. -/
theorem claim_C9_counterexample :
    FreshnessPolicy.new (fun _ => true) (fun _ => true) (.int 0) none none =
        .ok ⟨0, none, none⟩ ∧
      ¬ (0 < (FreshnessPolicy.mk 0 none none).maximum_lag_minutes) :=
  ⟨rfl, lt_irrefl 0⟩

/-- C9 amended: construction coerces `maximum_lag_minutes` to a number and
stores it unchanged — any numeric value, positive or not, is accepted, so
successfully constructed policies need not satisfy `maximum_lag > 0` — and
non-numeric input fails with a parameter-validation error. -/
theorem claim_C9_amended_numeric_only :
    (∀ (v h : String → Bool) (lag : PyVal) (cron tz : Option String)
      (p : FreshnessPolicy),
      FreshnessPolicy.new v h lag cron tz = .ok p →
        numeric_param lag "maximum_lag_minutes" = .ok p.maximum_lag_minutes) ∧
    (∀ (v h : String → Bool) (r : String),
      FreshnessPolicy.new v h (.nonNumeric r) none none =
        .error (.parameterCheck "maximum_lag_minutes"
          ("Param maximum_lag_minutes is not numeric, got " ++ r ++ "."))) ∧
    (∀ (v h : String → Bool) (q : ℚ),
      FreshnessPolicy.new v h (.float q) none none = .ok ⟨q, none, none⟩) :=
  ⟨fun v h lag cron tz p hp => (new_eq_ok v h lag cron tz p hp).1,
   fun _ _ _ => rfl, fun _ _ _ => rfl⟩

/-- Witness for C9 amended: a negative lag is accepted and stored. -/
theorem claim_C9_amended_numeric_only_witness :
    numeric_param (.float (-5)) "maximum_lag_minutes" =
      .ok (FreshnessPolicy.mk (-5) none none).maximum_lag_minutes :=
  claim_C9_amended_numeric_only.1 (fun _ => true) (fun _ => true) (.float (-5))
    none none ⟨-5, none, none⟩ rfl

/-- C10: reconstructing a policy through the pickle pair
(`__reduce__` then `_create`) preserves `maximum_lag_minutes` and
`cron_schedule` but always yields `cron_schedule_timezone = None`, so any
policy originally built with a timezone is not equal to its reconstruction. -/
theorem claim_C10_reduce_roundtrip (v h : String → Bool) (lag : PyVal)
    (cron tz : Option String) (p : FreshnessPolicy)
    (hp : FreshnessPolicy.new v h lag cron tz = .ok p) :
    FreshnessPolicy.reduce_roundtrip v h p =
      .ok ⟨p.maximum_lag_minutes, p.cron_schedule, none⟩ ∧
    (tz ≠ none → (⟨p.maximum_lag_minutes, p.cron_schedule, none⟩ : FreshnessPolicy) ≠ p) := by
  obtain ⟨hnum, hcron, htz, hvalid⟩ := new_eq_ok v h lag cron tz p hp
  constructor
  · rw [FreshnessPolicy.reduce_roundtrip]
    cases hc : p.cron_schedule with
    | none =>
      simp [FreshnessPolicy.new, hc, throw, throwThe, MonadExceptOf.throw,
        bind, Except.bind, pure, Except.pure, Functor.map, Except.map, numeric_param]
    | some s =>
      have hv : v s = true := hvalid s (hcron.symm.trans hc)
      simp [FreshnessPolicy.new, hc, hv, throw, throwThe, MonadExceptOf.throw,
        bind, Except.bind, pure, Except.pure, Functor.map, Except.map, numeric_param]
  · intro hne heq
    apply hne
    have hfield := congrArg FreshnessPolicy.cron_schedule_timezone heq
    rw [← htz]
    exact hfield.symm

/-- Witness for C10: a policy built with a timezone reconstructs without it
and differs from the original. -/
theorem claim_C10_reduce_roundtrip_witness :
    FreshnessPolicy.reduce_roundtrip (fun _ => true) (fun _ => true)
        ⟨30, some "0 9 * * *", some "UTC"⟩ =
      .ok ⟨30, some "0 9 * * *", none⟩ ∧
    (⟨30, some "0 9 * * *", none⟩ : FreshnessPolicy) ≠
      ⟨30, some "0 9 * * *", some "UTC"⟩ := by
  have happ := claim_C10_reduce_roundtrip (fun _ => true) (fun _ => true) (.float 30)
    (some "0 9 * * *") (some "UTC") ⟨30, some "0 9 * * *", some "UTC"⟩ rfl
  exact ⟨happ.1, happ.2 (by simp)⟩

end Freshness
